import Mathlib

/-!
Verification of the bedtime-story pipeline in `storyteller.py`.

The Python program is shallowly embedded: JSON values are an inductive
type `Json`, Python exceptions are the `Except PyErr` monad, the external
language model is an oracle `env : String → String` mapping a prompt to the
model's raw text response, and the API key is an `Option String` (the
environment variable, absent or present).

Library functions of Python that the program uses (`json.loads`, `str.strip`,
`int(...)`, f-string `str()` conversion, the single regex) are modelled
explicitly below, restricted to the fragments the program exercises:
the JSON number model is integer-only (no floats, no NaN/Infinity) and
string literals support the one-character escapes but not `\u` sequences.
-/

/-- A Python/JSON value as produced by `json.loads`: `null`, booleans,
(integer) numbers, strings, arrays and objects.  `Json.null` doubles as
Python's `None`. -/
inductive Json where
  | null : Json
  | bool : Bool → Json
  | num : Int → Json
  | str : String → Json
  | arr : List Json → Json
  | obj : List (String × Json) → Json

mutual

/-- Boolean equality on JSON values (structural). -/
def jbeq : Json → Json → Bool
  | Json.null, Json.null => true
  | Json.bool a, Json.bool b => a == b
  | Json.num a, Json.num b => a == b
  | Json.str a, Json.str b => a == b
  | Json.arr a, Json.arr b => jbeqList a b
  | Json.obj a, Json.obj b => jbeqFields a b
  | _, _ => false

/-- Boolean equality on lists of JSON values. -/
def jbeqList : List Json → List Json → Bool
  | [], [] => true
  | a :: as, b :: bs => jbeq a b && jbeqList as bs
  | _, _ => false

/-- Boolean equality on object fields. -/
def jbeqFields : List (String × Json) → List (String × Json) → Bool
  | [], [] => true
  | a :: as, b :: bs => (a.1 == b.1) && jbeq a.2 b.2 && jbeqFields as bs
  | _, _ => false

end

mutual

theorem jbeq_iff : ∀ a b : Json, jbeq a b = true ↔ a = b
  | Json.null, b => by cases b <;> simp [jbeq]
  | Json.bool a, b => by cases b <;> simp [jbeq]
  | Json.num a, b => by cases b <;> simp [jbeq]
  | Json.str a, b => by cases b <;> simp [jbeq]
  | Json.arr a, b => by
      cases b <;> simp [jbeq]
      exact jbeqList_iff a _
  | Json.obj a, b => by
      cases b <;> simp [jbeq]
      exact jbeqFields_iff a _

theorem jbeqList_iff : ∀ as bs : List Json, jbeqList as bs = true ↔ as = bs
  | [], bs => by cases bs <;> simp [jbeqList]
  | a :: as, bs => by
      cases bs with
      | nil => simp [jbeqList]
      | cons b bs =>
          simp only [jbeqList, Bool.and_eq_true, jbeq_iff a b, jbeqList_iff as bs,
            List.cons.injEq]

theorem jbeqFields_iff : ∀ as bs : List (String × Json),
    jbeqFields as bs = true ↔ as = bs
  | [], bs => by cases bs <;> simp [jbeqFields]
  | a :: as, bs => by
      cases bs with
      | nil => simp [jbeqFields]
      | cons b bs =>
          simp only [jbeqFields, Bool.and_eq_true, jbeq_iff a.2 b.2,
            jbeqFields_iff as bs, List.cons.injEq, beq_iff_eq]
          constructor
          · rintro ⟨⟨h1, h2⟩, h3⟩
            exact ⟨Prod.ext h1 h2, h3⟩
          · rintro ⟨h, h3⟩
            exact ⟨⟨congrArg Prod.fst h, congrArg Prod.snd h⟩, h3⟩

end

instance : DecidableEq Json := fun a b =>
  decidable_of_iff (jbeq a b = true) (jbeq_iff a b)

/-- The left brace character (written via its code point so that it never
occurs literally in the file). -/
def lbrace : Char := Char.ofNat 123

/-- The right brace character. -/
def rbrace : Char := Char.ofNat 125

/-- The Python exceptions this program can raise. -/
inductive PyErr where
  | typeError : PyErr
  | valueError : PyErr
  | attributeError : PyErr
  | runtimeError : String → PyErr
deriving DecidableEq, Repr

/-- Python truthiness of a value (`bool(x)`): `None`, `False`, `0`, `""`,
`[]` and the empty dict are falsy, everything else is truthy. -/
def truthy : Json → Bool
  | Json.null => false
  | Json.bool b => b
  | Json.num n => n != 0
  | Json.str s => !s.isEmpty
  | Json.arr l => !l.isEmpty
  | Json.obj fs => !fs.isEmpty

/-- Lookup in an association list of object fields (Python dict lookup;
the JSON decoder below keeps keys unique, first match wins). -/
def jlookup (fs : List (String × Json)) (k : String) : Option Json :=
  match fs with
  | [] => none
  | p :: rest => if p.1 = k then some p.2 else jlookup rest k

/-- Python `x or y` for a value `x` already computed: `x` if truthy else `y`. -/
def pyOr (a b : Json) : Json := if truthy a then a else b

/-- Python `d.get(k, default)`: only dicts have `.get`; anything else
raises `AttributeError`. -/
def pyGetD (d : Json) (k : String) (dflt : Json) : Except PyErr Json :=
  match d with
  | Json.obj fs => Except.ok ((jlookup fs k).getD dflt)
  | _ => Except.error PyErr.attributeError

/-- Python `v >= n` for an `int` bound `n`: defined on numbers and booleans
(`True` counts as 1), a `TypeError` on any other operand. -/
def pyGE (v : Json) (n : Int) : Except PyErr Bool :=
  match v with
  | Json.num m => Except.ok (n ≤ m)
  | Json.bool b => Except.ok (n ≤ (if b then (1 : Int) else 0))
  | _ => Except.error PyErr.typeError

/-- Python `len(x)`: strings, lists and dicts have a length, other values
raise `TypeError`. -/
def pyLen (v : Json) : Except PyErr Nat :=
  match v with
  | Json.str s => Except.ok s.length
  | Json.arr l => Except.ok l.length
  | Json.obj fs => Except.ok fs.length
  | _ => Except.error PyErr.typeError

/-- Decimal digits to a natural number. -/
def digitsToNat (ds : List Char) : Nat :=
  ds.foldl (fun a c => a * 10 + (c.toNat - 48)) 0

/-- A non-empty all-digit character list, as a number. -/
def decDigits? (l : List Char) : Option Nat :=
  if l ≠ [] ∧ l.all Char.isDigit then some (digitsToNat l) else none

/-- Python `str.strip()`: drop leading and trailing whitespace (the
ASCII whitespace characters; Python also strips some rarer Unicode
whitespace, which no claim involves). -/
def pyStrip (s : String) : String :=
  String.mk (((s.data.dropWhile Char.isWhitespace).reverse.dropWhile
    Char.isWhitespace).reverse)

/-- Python `int(s)` on a string: optional sign and decimal digits after
stripping surrounding whitespace (digit-group underscores are not
modelled); otherwise `ValueError`. -/
def parseIntStr (s : String) : Option Int :=
  match (pyStrip s).data with
  | '-' :: r => (decDigits? r).map (fun n => -(n : Int))
  | '+' :: r => (decDigits? r).map (fun n => (n : Int))
  | l => (decDigits? l).map (fun n => (n : Int))

/-- Python `int(x)`: identity on ints, 0/1 on booleans, decimal parse on
strings (`ValueError` when malformed), `TypeError` on everything else. -/
def pyInt (v : Json) : Except PyErr Int :=
  match v with
  | Json.num n => Except.ok n
  | Json.bool b => Except.ok (if b then 1 else 0)
  | Json.str s =>
      match parseIntStr s with
      | some n => Except.ok n
      | none => Except.error PyErr.valueError
  | _ => Except.error PyErr.typeError

mutual

/-- Python `repr()` of a JSON-decoded value, as used by `str()` on
containers (string quoting is approximated with single quotes). -/
def pyRepr : Json → String
  | Json.null => "None"
  | Json.bool b => if b then "True" else "False"
  | Json.num n => toString n
  | Json.str s => "'" ++ s ++ "'"
  | Json.arr l => "[" ++ String.intercalate ", " (pyReprList l) ++ "]"
  | Json.obj fs => String.mk [lbrace] ++
      String.intercalate ", " (pyReprFields fs) ++ String.mk [rbrace]

/-- `repr` of the elements of a list value. -/
def pyReprList : List Json → List String
  | [] => []
  | j :: rest => pyRepr j :: pyReprList rest

/-- `repr` of the fields of a dict value. -/
def pyReprFields : List (String × Json) → List String
  | [] => []
  | p :: rest => ("'" ++ p.1 ++ "': " ++ pyRepr p.2) :: pyReprFields rest

end

/-- Python `str(x)` as used in f-strings: strings stay as they are,
other values use their `repr`. -/
def pyStr : Json → String
  | Json.str s => s
  | j => pyRepr j

/-- Python iteration `for x in v`: lists yield elements, strings yield
one-character strings, dicts yield their keys; other values raise
`TypeError`. -/
def pyIter (v : Json) : Except PyErr (List Json) :=
  match v with
  | Json.arr l => Except.ok l
  | Json.str s => Except.ok (s.data.map (fun c => Json.str (String.mk [c])))
  | Json.obj fs => Except.ok (fs.map (fun p => Json.str p.1))
  | _ => Except.error PyErr.typeError

/-- Python `sep.join(it)`: every element must be a string, otherwise
`TypeError`. -/
def pyJoinStrs (sep : String) (v : Json) : Except PyErr String := do
  let elems ← pyIter v
  let strs ← elems.mapM (fun e =>
    match e with
    | Json.str s => Except.ok s
    | _ => Except.error PyErr.typeError)
  Except.ok (String.intercalate sep strs)

/-! ### A model of `json.loads`

Restricted to the fragment relevant here: strict JSON with integer
numbers (a leading-zero token ends after the zero, as in CPython's
tokenizer), simple escape sequences, and the four JSON whitespace
characters. -/

/-- The whitespace characters `json.loads` skips between tokens. -/
def jsonWs (c : Char) : Bool := c = ' ' ∨ c = '\t' ∨ c = '\n' ∨ c = '\r'

/-- Skip JSON whitespace. -/
def skipWs (l : List Char) : List Char := l.dropWhile jsonWs

/-- Decode one string-escape character. -/
def escChar (c : Char) : Option Char :=
  if c = '"' then some '"'
  else if c = '\\' then some '\\'
  else if c = '/' then some '/'
  else if c = 'b' then some (Char.ofNat 8)
  else if c = 'f' then some (Char.ofNat 12)
  else if c = 'n' then some '\n'
  else if c = 'r' then some '\r'
  else if c = 't' then some '\t'
  else none

/-- Parse the body of a string literal (the opening quote already
consumed), returning the decoded string and the rest of the input. -/
def parseStrChars : List Char → Option (String × List Char)
  | [] => none
  | c :: rest =>
    if c = '"' then some ("", rest)
    else if c = '\\' then
      match rest with
      | e :: rest' => do
        let ec ← escChar e
        let (s, rem) ← parseStrChars rest'
        some (String.mk (ec :: s.data), rem)
      | [] => none
    else if c.toNat < 32 then none
    else do
      let (s, rem) ← parseStrChars rest
      some (String.mk (c :: s.data), rem)

/-- Parse a JSON number token (integer part only; a fractional part or
exponent is outside the modelled fragment and fails). -/
def parseNumber (l : List Char) : Option (Json × List Char) :=
  let signed := match l with
    | '-' :: r => some (true, r)
    | _ => some (false, l)
  match signed with
  | some (neg, l1) =>
    match l1 with
    | [] => none
    | d :: _ =>
      if ¬ d.isDigit then none
      else
        let ds0 := l1.takeWhile Char.isDigit
        let rem0 := l1.dropWhile Char.isDigit
        let ds := if 1 < ds0.length ∧ ds0.headD 'x' = '0' then ['0'] else ds0
        let rem := if 1 < ds0.length ∧ ds0.headD 'x' = '0'
          then ds0.drop 1 ++ rem0 else rem0
        let bad : Bool := match rem with
          | p :: _ => p == '.' || p == 'e' || p == 'E'
          | [] => false
        if bad then none
        else
          let n : Int := if neg then -(digitsToNat ds : Int) else (digitsToNat ds : Int)
          some (Json.num n, rem)
  | none => none

/-- Insert a key/value pair into decoded object fields the way a Python
dict does: replace in place when the key exists, append otherwise. -/
def objInsert (fs : List (String × Json)) (k : String) (v : Json) :
    List (String × Json) :=
  if fs.any (fun p => p.1 = k) then
    fs.map (fun p => if p.1 = k then (k, v) else p)
  else fs ++ [(k, v)]

mutual

/-- Parse one JSON value (fuel-indexed recursive descent). -/
def parseValue (fuel : Nat) (l : List Char) : Option (Json × List Char) :=
  match fuel with
  | 0 => none
  | fuel' + 1 =>
    match skipWs l with
    | [] => none
    | c :: rest =>
      if c = lbrace then
        match skipWs rest with
        | c2 :: rest2 =>
          if c2 = rbrace then some (Json.obj [], rest2)
          else parseObjFields fuel' rest []
        | [] => none
      else if c = '[' then
        match skipWs rest with
        | c2 :: rest2 =>
          if c2 = ']' then some (Json.arr [], rest2)
          else parseArrElems fuel' rest []
        | [] => none
      else if c = '"' then do
        let (s, rem) ← parseStrChars rest
        some (Json.str s, rem)
      else if c = 't' then
        if rest.take 3 = ['r', 'u', 'e'] then some (Json.bool true, rest.drop 3)
        else none
      else if c = 'f' then
        if rest.take 4 = ['a', 'l', 's', 'e'] then some (Json.bool false, rest.drop 4)
        else none
      else if c = 'n' then
        if rest.take 3 = ['u', 'l', 'l'] then some (Json.null, rest.drop 3)
        else none
      else parseNumber (c :: rest)

/-- Parse the fields of an object after its opening brace (at least one
field present). -/
def parseObjFields (fuel : Nat) (l : List Char) (acc : List (String × Json)) :
    Option (Json × List Char) :=
  match fuel with
  | 0 => none
  | fuel' + 1 =>
    match skipWs l with
    | '"' :: r => do
      let (k, r1) ← parseStrChars r
      match skipWs r1 with
      | ':' :: r3 => do
        let (v, r4) ← parseValue fuel' r3
        match skipWs r4 with
        | ',' :: r6 => parseObjFields fuel' r6 (objInsert acc k v)
        | rb :: r6 =>
          if rb = rbrace then some (Json.obj (objInsert acc k v), r6) else none
        | [] => none
      | _ => none
    | _ => none

/-- Parse the elements of an array after its opening bracket (at least one
element present). -/
def parseArrElems (fuel : Nat) (l : List Char) (acc : List Json) :
    Option (Json × List Char) :=
  match fuel with
  | 0 => none
  | fuel' + 1 => do
    let (v, rem) ← parseValue fuel' l
    match skipWs rem with
    | ',' :: r => parseArrElems fuel' r (acc ++ [v])
    | ']' :: r => some (Json.arr (acc ++ [v]), r)
    | _ => none

end

/-- `json.loads` on a character list: parse a single value, require only
whitespace afterwards (otherwise CPython raises "Extra data"); `none`
models the raised `JSONDecodeError`. -/
def pyParseJsonL (l : List Char) : Option Json :=
  match parseValue (l.length + 1) l with
  | some (j, rem) => if skipWs rem = [] then some j else none
  | none => none

/-- `json.loads` on a string. -/
def pyParseJson (s : String) : Option Json := pyParseJsonL s.data

/-- The regex fallback `re.search(r"..." , text, re.DOTALL)` of
`safe_json_loads`: the greedy brace pattern matches from the first left
brace to the last right brace, when that span is a proper pair. -/
def braceExtract (l : List Char) : Option (List Char) :=
  let t := l.dropWhile (fun c => c ≠ lbrace)
  let u := (t.reverse.dropWhile (fun c => c ≠ rbrace)).reverse
  if u.length ≤ 1 then none else some u

/-- `safe_json_loads` (storyteller.py:235-245) on a character list:
direct parse, then the brace-regex fallback, then the absent result.
Python's `None` return (either a parsed JSON `null` or the failure
result) is `Json.null`. -/
def safe_json_loads_list (l : List Char) : Json :=
  match pyParseJsonL l with
  | some j => j
  | none =>
    match braceExtract l with
    | some sub => (pyParseJsonL sub).getD Json.null
    | none => Json.null

/-- `safe_json_loads` on a string. -/
def safe_json_loads (text : String) : Json := safe_json_loads_list text.data

/-! ### Data model (the three dataclasses)

Python dataclasses do not enforce their annotations: any decoded value can
end up in any field, so fields that receive decoded model output are
`Json`. -/

/-- `ParsedRequest` (storyteller.py:35-43). -/
structure ParsedRequest where
  raw_request : String
  title_hint : Json
  characters : Json
  setting : Json
  theme : Json
  tone : Json
  constraints : Json
deriving DecidableEq

/-- `ArcPlan` (storyteller.py:46-49): `target_words` is a real `int` after
the `int(...)` conversion; the beat list is whatever survived validation. -/
structure ArcPlan where
  target_words : Int
  beats : Json
deriving DecidableEq

/-- `JudgeResult` (storyteller.py:52-58). -/
structure JudgeResult where
  overall_pass : Json
  scores : Json
  strengths : Json
  issues : Json
  fixes : Json
deriving DecidableEq

/-! ### Model invoker -/

/-- `call_model` (storyteller.py:19-32).  The external service is the
oracle `env`; the second component lists the network calls performed
(empty when the missing-credential error is raised, since the exception
fires before `openai.ChatCompletion.create`).  The `max_tokens` and
`temperature` arguments only parameterize the service call and are not
modelled. -/
def call_model (apiKey : Option String) (env : String → String)
    (prompt : String) : Except PyErr String × List String :=
  let key := pyStrip (apiKey.getD "")
  if key = "" then
    (Except.error (PyErr.runtimeError
      "OPENAI_API_KEY is not set. Set it in your environment and rerun."), [])
  else (Except.ok (env prompt), [prompt])

/-! ### Prompt builders -/

/-- `parser_prompt` (storyteller.py:62-79). -/
def parser_prompt (userRequest : String) : String :=
  "\nYou extract structured requirements for a bedtime story appropriate for ages 5–10.\n\nUser request:\n"
  ++ userRequest ++
  "\n\nReturn ONLY valid JSON with keys:\n- title_hint\n- characters (list)\n- setting\n- theme\n- tone\n- constraints (list)\n\nConstraints must include:\n\"no gore\", \"no explicit romance\", \"no cruelty\", \"no graphic violence\", \"warm ending\", \"bedtime pacing\".\n"

/-- `arc_planner_prompt` (storyteller.py:82-103). -/
def arc_planner_prompt (userRequest : String) : String :=
  "\nYou plan a simple bedtime story arc for ages 5–10.\n\nUser request:\n"
  ++ userRequest ++
  "\n\nIMPORTANT:\n- Keep the core idea of the user request.\n- If the request includes unsafe topics (like \"robber\"), do NOT replace it with an unrelated job.\n  Reframe it gently (pretend play, misunderstanding, learning honesty, returning items).\n\nReturn ONLY valid JSON with keys:\n- target_words: integer 600 to 1100\n- beats: list of EXACTLY 6 beats in order:\n  1) Hook (introduce characters + cozy setting)\n  2) Small Problem (kid-safe)\n  3) Attempt 1\n  4) Attempt 2\n  5) Gentle Climax (safe, not scary)\n  6) Warm Ending (calm, bedtime-ready)\n"

/-- The generator expression `"\n".join(f"- {c}" for c in v)`: iterate and
prefix each element's `str()` with a dash. -/
def joinDash (v : Json) : Except PyErr String := do
  let es ← pyIter v
  Except.ok (String.intercalate "\n" (es.map (fun c => "- " ++ pyStr c)))

/-- `storyteller_prompt` (storyteller.py:106-150).  Joining is fallible,
so building the prompt is fallible. -/
def storyteller_prompt (parsed : ParsedRequest) (plan : ArcPlan) :
    Except PyErr String := do
  let constraints ← joinDash parsed.constraints
  let characters ←
    if truthy parsed.characters then pyJoinStrs ", " parsed.characters
    else Except.ok "Invent two lovable characters"
  let beatsIter ← pyIter plan.beats
  let beatsText := String.intercalate "\n"
    (beatsIter.enum.map (fun p => toString (p.1 + 1) ++ ". " ++ pyStr p.2))
  Except.ok (
    "\nWrite a bedtime story for ages 5–10.\n\nUser request (keep the core idea; reframe gently if needed, do NOT replace it):\n"
    ++ parsed.raw_request ++
    "\n\nTitle idea: " ++ pyStr parsed.title_hint ++
    "\nCharacters: " ++ characters ++
    "\nSetting: " ++ pyStr parsed.setting ++
    "\nTheme: " ++ pyStr parsed.theme ++
    "\nTone: " ++ pyStr parsed.tone ++
    "\n\nConstraints:\n" ++ constraints ++
    "\n\nStory arc beats (follow these in order):\n" ++ beatsText ++
    "\n\nWriting guidelines:\n- Clear, natural language suitable for ages 5–10 (no toddler phrasing)\n- Treat the reader as a curious child, not a toddler\n- Calm, comforting bedtime tone without sounding childish\n- Emotionally warm but not simplistic\n- Light, age-appropriate humor is welcome\n\nStory requirements:\n- Clear arc: setup → problem → gentle resolution\n- Cozy bedtime tone\n- Simple language\n- 6–10 short paragraphs\n- Warm, calming ending\n\nOUTPUT RULES:\n- Output ONLY the story (title + paragraphs)\n- No commentary, no apologies, no extra explanation, no quotes around the story\n\nLength: about "
    ++ toString plan.target_words ++
    " words.\n\nBegin the story now.\n")

/-- `judge_prompt` (storyteller.py:153-180). -/
def judge_prompt (userRequest story : String) : String :=
  "\nYou are a judge evaluating a bedtime story for ages 5–10.\n\nUser request:\n"
  ++ userRequest ++
  "\n\nStory:\n\"\"\"" ++ story ++ "\"\"\"\n\nScore each from 0–10:\n- age_appropriateness\n- coziness\n- story_arc\n- character_warmth\n- language_simplicity\n- creativity\n- safety\n\nReturn ONLY valid JSON with:\n- overall_pass (boolean; pass if all >=7 and safety >=8)\n- scores (object)\n- strengths (list)\n- issues (list)\n- fixes (list of concrete improvements)\n\nDo NOT rewrite the story.\n"

/-- `reviser_prompt` (storyteller.py:183-200): `fixes` is whatever the
judge result carried, defaulted when falsy. -/
def reviser_prompt (userRequest story : String) (fixes : Json) :
    Except PyErr String := do
  let fixesText ← joinDash
    (pyOr fixes (Json.arr [Json.str "Make it cozier and simpler."]))
  Except.ok (
    "\nRevise the bedtime story below for ages 5–10.\n\nUser request:\n"
    ++ userRequest ++
    "\n\nOriginal story:\n\"\"\"" ++ story ++
    "\"\"\"\n\nApply ONLY these fixes:\n" ++ fixesText ++
    "\n\nKeep character names and the overall structure.\nOutput ONLY the full revised story (no commentary, no quotes).\n")

/-- `feedback_reviser_prompt` (storyteller.py:203-231). -/
def feedback_reviser_prompt (userRequest story feedback : String) : String :=
  "\nRevise the bedtime story for ages 5–10 based on user feedback.\n\nOriginal request:\n"
  ++ userRequest ++
  "\n\nUser feedback:\n" ++ feedback ++
  "\n\nStory:\n\"\"\"" ++ story ++
  "\"\"\"\n\nRules:\n- Keep the same main characters and overall plot\n- Output ONLY the revised story (no commentary, no quotes)\n\nIf feedback is about LENGTH:\n- \"shorter\": reduce to 4–6 short paragraphs\n- \"longer\": expand to 8–12 short paragraphs (add cozy details, not new major plot)\n\nIf feedback is about the ENDING (e.g., \"different ending\"):\n- change ONLY the final paragraph and make it clearly different\n\nOtherwise:\n- apply the feedback as a tone/style change across the story.\n\nNow output the full revised story.\n"

/-! ### Request parser -/

/-- The six required constraint strings (storyteller.py:253-260). -/
def requiredConstraints : List String :=
  ["no gore", "no explicit romance", "no cruelty", "no graphic violence",
   "warm ending", "bedtime pacing"]

/-- Python `r in c` for a string `r`: list membership, substring test on
strings, key membership on dicts, `TypeError` otherwise. -/
def pyContains (c : Json) (r : String) : Except PyErr Bool :=
  match c with
  | Json.arr l => Except.ok (l.any (fun x => x = Json.str r))
  | Json.str s => Except.ok (decide (List.IsInfix r.data s.data))
  | Json.obj fs => Except.ok (fs.any (fun p => p.1 = r))
  | _ => Except.error PyErr.typeError

/-- One iteration of the required-constraints loop
(storyteller.py:261-263): `if r not in constraints: constraints.append(r)`;
`.append` exists only on lists. -/
def addConstraint (c : Json) (r : String) : Except PyErr Json := do
  let mem ← pyContains c r
  if mem then Except.ok c
  else
    match c with
    | Json.arr l => Except.ok (Json.arr (l ++ [Json.str r]))
    | _ => Except.error PyErr.attributeError

/-- The whole required-constraints loop. -/
def addAllConstraints : Json → List String → Except PyErr Json
  | c, [] => Except.ok c
  | c, r :: rs => do addAllConstraints (← addConstraint c r) rs

/-- `parse_request` (storyteller.py:248-273). -/
def parse_request (apiKey : Option String) (env : String → String)
    (userRequest : String) : Except PyErr ParsedRequest := do
  let raw ← (call_model apiKey env (parser_prompt userRequest)).1
  let data ← Except.ok (pyOr (safe_json_loads raw) (Json.obj []))
  let constraints0 ← pyGetD data "constraints" (Json.arr [])
  let constraints ← addAllConstraints constraints0 requiredConstraints
  let titleHint ← pyGetD data "title_hint" (Json.str "A Cozy Bedtime Adventure")
  let characters ← pyGetD data "characters" (Json.arr [])
  let setting ← pyGetD data "setting" (Json.str "a quiet, magical place")
  let theme ← pyGetD data "theme" (Json.str "friendship and kindness")
  let tone ← pyGetD data "tone" (Json.str "cozy and gentle")
  Except.ok
    { raw_request := userRequest, title_hint := titleHint,
      characters := characters, setting := setting, theme := theme,
      tone := tone, constraints := constraints }

/-! ### Arc planner -/

/-- The hardcoded fallback outline (storyteller.py:287-294). -/
def fallbackBeats : Json := Json.arr
  [Json.str "Hook: Introduce the characters in a cozy place.",
   Json.str "Small Problem: A tiny kid-safe problem appears.",
   Json.str "Attempt 1: They try a simple solution.",
   Json.str "Attempt 2: They try a different solution.",
   Json.str "Gentle Climax: A small safe moment resolves the problem.",
   Json.str "Warm Ending: Calm wrap-up and bedtime-ready goodnight."]

/-- `make_arc_plan` (storyteller.py:276-296). -/
def make_arc_plan (apiKey : Option String) (env : String → String)
    (userRequest : String) : Except PyErr ArcPlan := do
  let raw ← (call_model apiKey env (arc_planner_prompt userRequest)).1
  let data ← Except.ok (pyOr (safe_json_loads raw) (Json.obj []))
  let twRaw ← pyGetD data "target_words" Json.null
  let tw0 ← pyInt (pyOr twRaw (Json.num 900))
  let beatsRaw ← pyGetD data "beats" Json.null
  let beats0 ← Except.ok (pyOr beatsRaw (Json.arr []))
  let tw ← Except.ok (if tw0 < 600 ∨ tw0 > 1100 then (900 : Int) else tw0)
  let blen ← pyLen beats0
  let beats ← Except.ok (if blen ≠ 6 then fallbackBeats else beats0)
  Except.ok { target_words := tw, beats := beats }

/-! ### Judge -/

/-- The values of a decoded `scores` object (`scores.values()`). -/
def jsonValues : Json → List Json
  | Json.obj fs => fs.map (fun p => p.2)
  | _ => []

/-- `all(v >= 7 for v in scores.values())`: short-circuits on the first
score below 7, so a later ill-typed score is never compared. -/
def pyAllGE7 : List Json → Except PyErr Bool
  | [] => Except.ok true
  | v :: rest => do
    let b ← pyGE v 7
    if b then pyAllGE7 rest else Except.ok false

/-- The pure part of `judge_story` (storyteller.py:303-316), applied to
the decoded (and `or {}`-defaulted) response data. -/
def judgeFromData (data : Json) : Except PyErr JudgeResult := do
  let scores ← pyGetD data "scores" (Json.obj [])
  let safety ← pyGetD scores "safety" (Json.num 0)
  let reported ← pyGetD data "overall_pass" (Json.bool false)
  let overall ←
    if truthy reported then Except.ok reported
    else do
      let a ← pyAllGE7 (jsonValues scores)
      let p ← if a then pyGE safety 8 else Except.ok false
      Except.ok (Json.bool p)
  let strengths ← pyGetD data "strengths" (Json.arr [])
  let issues ← pyGetD data "issues" (Json.arr [])
  let fixes ← pyGetD data "fixes" (Json.arr [])
  Except.ok
    { overall_pass := overall, scores := scores, strengths := strengths,
      issues := issues, fixes := fixes }

/-- `judge_story` (storyteller.py:299-316). -/
def judge_story (apiKey : Option String) (env : String → String)
    (userRequest story : String) : Except PyErr JudgeResult := do
  let raw ← (call_model apiKey env (judge_prompt userRequest story)).1
  judgeFromData (pyOr (safe_json_loads raw) (Json.obj []))

/-! ### Revision loop -/

/-- The pipeline prefix of `generate_story_with_judging`
(storyteller.py:320-323): parse, plan, and generate the first draft. -/
def initial_draft (apiKey : Option String) (env : String → String)
    (userRequest : String) : Except PyErr String := do
  let parsed ← parse_request apiKey env userRequest
  let plan ← make_arc_plan apiKey env userRequest
  let sp ← storyteller_prompt parsed plan
  (call_model apiKey env sp).1

/-- The `for _ in range(max_rounds)` loop (storyteller.py:325-334),
returning the final story together with the number of judge calls and the
number of revision calls performed. -/
def judgingLoop (apiKey : Option String) (env : String → String)
    (userRequest : String) : Nat → String → Except PyErr (String × Nat × Nat)
  | 0, story => Except.ok (story, 0, 0)
  | n + 1, story => do
    let verdict ← judge_story apiKey env userRequest story
    if truthy verdict.overall_pass then Except.ok (story, 1, 0)
    else do
      let rp ← reviser_prompt userRequest story verdict.fixes
      let story' ← (call_model apiKey env rp).1
      let r ← judgingLoop apiKey env userRequest n story'
      Except.ok (r.1, r.2.1 + 1, r.2.2 + 1)

/-- `generate_story_with_judging` (storyteller.py:319-334); `max_rounds`
is a Python `int`, and `range` of a non-positive bound is empty. -/
def generate_story_with_judging (apiKey : Option String)
    (env : String → String) (userRequest : String) (maxRounds : Int) :
    Except PyErr (String × Nat × Nat) := do
  let story ← initial_draft apiKey env userRequest
  judgingLoop apiKey env userRequest maxRounds.toNat story

/-- The effect of one failing round on the current draft: judge it, build
the revision prompt from the verdict's fixes, and ask the model for the
revision (with identity fallbacks on the error branches, which the
theorems' hypotheses rule out). -/
def reviseStepD (apiKey : Option String) (env : String → String)
    (userRequest : String) (s : String) : String :=
  match judge_story apiKey env userRequest s with
  | Except.ok v =>
    match reviser_prompt userRequest s v.fixes with
    | Except.ok rp =>
      match (call_model apiKey env rp).1 with
      | Except.ok s' => s'
      | Except.error _ => s
    | Except.error _ => s
  | Except.error _ => s

/-! ### Generic helpers for the proofs -/

/-- Whether a Python computation completed without raising. -/
def noRaise {α : Type} : Except PyErr α → Bool
  | Except.ok _ => true
  | Except.error _ => false

theorem exceptBind_ok {α β : Type} (a : α) (f : α → Except PyErr β) :
    (Except.ok a : Except PyErr α) >>= f = f a := rfl

instance {ε α : Type} [DecidableEq ε] [DecidableEq α] :
    DecidableEq (Except ε α) := fun a b =>
  match a, b with
  | Except.ok x, Except.ok y =>
      if h : x = y then Decidable.isTrue (by rw [h])
      else Decidable.isFalse (by intro hh; injection hh; exact h (by assumption))
  | Except.error x, Except.error y =>
      if h : x = y then Decidable.isTrue (by rw [h])
      else Decidable.isFalse (by intro hh; injection hh; exact h (by assumption))
  | Except.ok _, Except.error _ =>
      Decidable.isFalse (fun hh => Except.noConfusion hh)
  | Except.error _, Except.ok _ =>
      Decidable.isFalse (fun hh => Except.noConfusion hh)

/-- When the API key is present and non-blank, `call_model` returns the
oracle's response to the prompt. -/
theorem call_model_ok (apiKey : Option String) (env : String → String)
    (prompt : String) (hkey : pyStrip (apiKey.getD "") ≠ "") :
    (call_model apiKey env prompt).1 = Except.ok (env prompt) := by
  unfold call_model
  rw [if_neg hkey]

theorem pyOr_of_truthy (a b : Json) (h : truthy a = true) : pyOr a b = a := by
  unfold pyOr
  rw [h]
  rfl

/-! ### The judge's pass/fail policy (claims C1, C2)

`judgeInput` builds the decoded judge response for a model-reported
boolean verdict (possibly absent) and an integer score mapping — the
shape the claims quantify over. -/

/-- A decoded judge response with reported verdict `ov` and scores `sf`. -/
def judgeInput (ov : Option Bool) (sf : List (String × Int)) : Json :=
  Json.obj ((match ov with
    | some b => [("overall_pass", Json.bool b)]
    | none => ([] : List (String × Json))) ++
    [("scores", Json.obj (sf.map (fun p => (p.1, Json.num p.2))))])

/-- The safety entry of a score mapping, 0 when absent (as in
`scores.get("safety", 0)`). -/
def safetyOf (sf : List (String × Int)) : Int :=
  ((sf.find? (fun p => p.1 = "safety")).map Prod.snd).getD 0

/-- The recomputed rubric verdict: every score at least 7 and the safety
score at least 8. -/
def rubricPass (sf : List (String × Int)) : Bool :=
  sf.all (fun p => 7 ≤ p.2) && decide (8 ≤ safetyOf sf)

theorem jlookup_map_num (sf : List (String × Int)) (k : String) :
    jlookup (sf.map (fun p => (p.1, Json.num p.2))) k =
      (sf.find? (fun p => p.1 = k)).map (fun p => Json.num p.2) := by
  induction sf with
  | nil => rfl
  | cons p rest ih =>
      by_cases h : p.1 = k
      · simp [jlookup, List.find?_cons, h]
      · simp [jlookup, List.find?_cons, h, ih]

theorem pyAllGE7_map (sf : List (String × Int)) :
    pyAllGE7 (sf.map (fun p => Json.num p.2)) =
      Except.ok (sf.all (fun p => 7 ≤ p.2)) := by
  induction sf with
  | nil => rfl
  | cons p rest ih =>
      by_cases h : (7 : Int) ≤ p.2
      · simp [pyAllGE7, pyGE, h, ih, exceptBind_ok]
      · simp [pyAllGE7, pyGE, h, exceptBind_ok]

theorem safety_lookup (sf : List (String × Int)) :
    ((sf.find? (fun p => p.1 = "safety")).map
        (fun p => Json.num p.2)).getD (Json.num 0) =
      Json.num (safetyOf sf) := by
  cases h : sf.find? (fun p => p.1 = "safety") <;> simp [safetyOf, h]

theorem comp_snd_map (sf : List (String × Int)) :
    List.map ((fun (p : String × Json) => p.2) ∘
        fun (p : String × Int) => (p.1, Json.num p.2)) sf =
      sf.map (fun p => Json.num p.2) := rfl

theorem judgeFromData_judgeInput (ov : Option Bool) (sf : List (String × Int)) :
    judgeFromData (judgeInput ov sf) = Except.ok
      { overall_pass := Json.bool ((ov == some true) || rubricPass sf),
        scores := Json.obj (sf.map (fun p => (p.1, Json.num p.2))),
        strengths := Json.arr [], issues := Json.arr [],
        fixes := Json.arr [] } := by
  cases ov with
  | none =>
      cases hall : sf.all (fun p => 7 ≤ p.2) <;>
        simp [judgeFromData, judgeInput, pyGetD, jlookup, jlookup_map_num,
          safety_lookup, truthy, exceptBind_ok, jsonValues, comp_snd_map,
          pyAllGE7_map, hall, pyGE, rubricPass]
  | some b =>
      cases b with
      | false =>
          cases hall : sf.all (fun p => 7 ≤ p.2) <;>
            simp [judgeFromData, judgeInput, pyGetD, jlookup, jlookup_map_num,
              safety_lookup, truthy, exceptBind_ok, jsonValues, comp_snd_map,
              pyAllGE7_map, hall, pyGE, rubricPass]
      | true =>
          simp [judgeFromData, judgeInput, pyGetD, jlookup, jlookup_map_num,
            safety_lookup, truthy, exceptBind_ok]

theorem truthy_judgeInput (ov : Option Bool) (sf : List (String × Int)) :
    truthy (judgeInput ov sf) = true := by
  cases ov <;> simp [judgeInput, truthy]

/-- Claim C1 (amended): for a judge response carrying a reported boolean
verdict `ov` (possibly absent) and an integer score mapping `sf`, the
`overall_pass` of the result of `judge_story` is true exactly when the
model reported `true`, or — when it reported `false` or nothing — when
every score is at least 7 and the safety score (0 when absent) is at
least 8.  A reported `true` is returned verbatim, so scores below the
thresholds force a failure only when the model did not itself claim a
pass. -/
theorem judge_story_pass_policy (apiKey : Option String) (env : String → String)
    (req story : String) (ov : Option Bool) (sf : List (String × Int))
    (hkey : pyStrip (apiKey.getD "") ≠ "")
    (h : safe_json_loads (env (judge_prompt req story)) = judgeInput ov sf) :
    judge_story apiKey env req story = Except.ok
      { overall_pass := Json.bool ((ov == some true) || rubricPass sf),
        scores := Json.obj (sf.map (fun p => (p.1, Json.num p.2))),
        strengths := Json.arr [], issues := Json.arr [],
        fixes := Json.arr [] } := by
  unfold judge_story
  rw [call_model_ok apiKey env _ hkey, exceptBind_ok, h,
    pyOr_of_truthy _ _ (truthy_judgeInput ov sf)]
  exact judgeFromData_judgeInput ov sf

/-- Claim C1, counterexample to the claim as stated: the model reports
`overall_pass: true` with a safety score of 0; the returned verdict is
nevertheless a pass, so a score below the threshold does not force
`overall_pass` to false when the model claimed a pass. -/
theorem judge_story_reported_true_overrides_rubric :
    judge_story (some "k")
      (fun _ => "\x7b\"overall_pass\": true, \"scores\": \x7b\"safety\": 0\x7d\x7d")
      "r" "s" = Except.ok
      { overall_pass := Json.bool true,
        scores := Json.obj [("safety", Json.num 0)],
        strengths := Json.arr [], issues := Json.arr [],
        fixes := Json.arr [] } := by decide

/-- Claim C1, witness: the pass-policy theorem applied to a concrete
response (reported failure, coziness 9, safety 9). -/
theorem judge_story_pass_policy_witness :
    judge_story (some "k")
      (fun _ => "\x7b\"overall_pass\": false, \"scores\": \x7b\"coziness\": 9, \"safety\": 9\x7d\x7d")
      "r" "s" = Except.ok
      { overall_pass := Json.bool true,
        scores := Json.obj [("coziness", Json.num 9), ("safety", Json.num 9)],
        strengths := Json.arr [], issues := Json.arr [],
        fixes := Json.arr [] } := by
  have h := judge_story_pass_policy (some "k")
    (fun _ => "\x7b\"overall_pass\": false, \"scores\": \x7b\"coziness\": 9, \"safety\": 9\x7d\x7d")
    "r" "s" (some false) [("coziness", 9), ("safety", 9)]
    (by decide) (by decide)
  exact h

/-- Claim C2 (amended): when the model's reported `overall_pass` is
`false` or absent, the returned verdict is the recomputed rubric verdict
(all scores at least 7 and safety at least 8) — which can be `true`, so
the recomputation can upgrade a model-reported failure into a pass. -/
theorem judge_story_recomputes_on_reported_failure (apiKey : Option String)
    (env : String → String) (req story : String) (ov : Option Bool)
    (sf : List (String × Int))
    (hkey : pyStrip (apiKey.getD "") ≠ "")
    (hov : ov ≠ some true)
    (h : safe_json_loads (env (judge_prompt req story)) = judgeInput ov sf) :
    judge_story apiKey env req story = Except.ok
      { overall_pass := Json.bool (rubricPass sf),
        scores := Json.obj (sf.map (fun p => (p.1, Json.num p.2))),
        strengths := Json.arr [], issues := Json.arr [],
        fixes := Json.arr [] } := by
  have hbeq : (ov == some true) = false := beq_eq_false_iff_ne.mpr hov
  unfold judge_story
  rw [call_model_ok apiKey env _ hkey, exceptBind_ok, h,
    pyOr_of_truthy _ _ (truthy_judgeInput ov sf),
    judgeFromData_judgeInput ov sf, hbeq]
  simp

/-- Claim C2, counterexample to the claim as stated: the model reports
`overall_pass: false` but every score meets the thresholds; the returned
verdict is a pass, so the recomputation does upgrade a model-reported
failure. -/
theorem judge_story_upgrades_reported_failure :
    judge_story (some "k")
      (fun _ => "\x7b\"overall_pass\": false, \"scores\": \x7b\"safety\": 9\x7d\x7d")
      "r" "s" = Except.ok
      { overall_pass := Json.bool true,
        scores := Json.obj [("safety", Json.num 9)],
        strengths := Json.arr [], issues := Json.arr [],
        fixes := Json.arr [] } := by decide

/-- Claim C2, witness: the recomputation theorem applied to a concrete
response with an absent verdict and a failing score mapping. -/
theorem judge_story_recomputes_on_reported_failure_witness :
    judge_story (some "k")
      (fun _ => "\x7b\"scores\": \x7b\"coziness\": 5, \"safety\": 9\x7d\x7d")
      "r" "s" = Except.ok
      { overall_pass := Json.bool false,
        scores := Json.obj [("coziness", Json.num 5), ("safety", Json.num 9)],
        strengths := Json.arr [], issues := Json.arr [],
        fixes := Json.arr [] } := by
  have h := judge_story_recomputes_on_reported_failure (some "k")
    (fun _ => "\x7b\"scores\": \x7b\"coziness\": 5, \"safety\": 9\x7d\x7d")
    "r" "s" none [("coziness", 5), ("safety", 9)]
    (by decide) (by decide) (by decide)
  exact h


/-! ### Error behaviour of the three parsing stages (claim C3) -/

theorem jlookup_mem (fs : List (String × Json)) (k : String) (v : Json) :
    jlookup fs k = some v → ∃ p ∈ fs, p.2 = v := by
  induction fs with
  | nil => intro h; cases h
  | cons p rest ih =>
      intro h
      unfold jlookup at h
      by_cases hk : p.1 = k
      · rw [if_pos hk] at h
        injection h with h
        exact ⟨p, List.mem_cons_self p rest, h⟩
      · rw [if_neg hk] at h
        obtain ⟨q, hq, hv⟩ := ih h
        exact ⟨q, List.mem_cons_of_mem _ hq, hv⟩

theorem addAllConstraints_arr (rs : List String) :
    ∀ l : List Json, ∃ l',
      addAllConstraints (Json.arr l) rs = Except.ok (Json.arr l') := by
  induction rs with
  | nil => exact fun l => ⟨l, rfl⟩
  | cons r rs ih =>
      intro l
      cases hb : l.any (fun x => x = Json.str r) with
      | true =>
          have hstep : addConstraint (Json.arr l) r = Except.ok (Json.arr l) := by
            unfold addConstraint pyContains
            rw [exceptBind_ok, hb]
            rfl
          obtain ⟨l', hl'⟩ := ih l
          refine ⟨l', ?_⟩
          unfold addAllConstraints
          rw [hstep, exceptBind_ok]
          exact hl'
      | false =>
          have hstep : addConstraint (Json.arr l) r =
              Except.ok (Json.arr (l ++ [Json.str r])) := by
            unfold addConstraint pyContains
            rw [exceptBind_ok, hb]
            rfl
          obtain ⟨l', hl'⟩ := ih (l ++ [Json.str r])
          refine ⟨l', ?_⟩
          unfold addAllConstraints
          rw [hstep, exceptBind_ok]
          exact hl'

theorem pyAllGE7_ok_of_nums :
    ∀ l : List Json, (∀ v ∈ l, ∃ n, v = Json.num n) →
      ∃ b, pyAllGE7 l = Except.ok b := by
  intro l
  induction l with
  | nil => exact fun _ => ⟨true, rfl⟩
  | cons v rest ih =>
      intro h
      obtain ⟨n, hn⟩ := h v (List.mem_cons_self v rest)
      subst hn
      have hge : pyGE (Json.num n) 7 = Except.ok (decide (7 ≤ n)) := rfl
      cases hd : decide ((7 : Int) ≤ n) with
      | true =>
          obtain ⟨b, hb⟩ := ih (fun w hw => h w (List.mem_cons_of_mem _ hw))
          refine ⟨b, ?_⟩
          unfold pyAllGE7
          rw [hge, exceptBind_ok, hd]
          exact hb
      | false =>
          refine ⟨false, ?_⟩
          unfold pyAllGE7
          rw [hge, exceptBind_ok, hd]
          rfl

theorem parse_request_ok_of_obj (apiKey : Option String) (env : String → String)
    (req : String) (fs1 : List (String × Json))
    (hkey : pyStrip (apiKey.getD "") ≠ "")
    (h1 : pyOr (safe_json_loads (env (parser_prompt req))) (Json.obj []) = Json.obj fs1)
    (h1c : jlookup fs1 "constraints" = none ∨
      ∃ l, jlookup fs1 "constraints" = some (Json.arr l)) :
    noRaise (parse_request apiKey env req) = true := by
  unfold parse_request
  rw [call_model_ok _ _ _ hkey, exceptBind_ok, h1, exceptBind_ok]
  have hx : pyGetD (Json.obj fs1) "constraints" (Json.arr []) =
      Except.ok ((jlookup fs1 "constraints").getD (Json.arr [])) := rfl
  have hc0 : ∃ l, pyGetD (Json.obj fs1) "constraints" (Json.arr []) =
      Except.ok (Json.arr l) := by
    rcases h1c with h | ⟨l, h⟩
    · exact ⟨[], by rw [hx, h]; rfl⟩
    · exact ⟨l, by rw [hx, h]; rfl⟩
  obtain ⟨l, hl⟩ := hc0
  rw [hl, exceptBind_ok]
  obtain ⟨l', hl'⟩ := addAllConstraints_arr requiredConstraints l
  rw [hl', exceptBind_ok]
  simp [pyGetD, exceptBind_ok, noRaise]

theorem make_arc_plan_ok_of_obj (apiKey : Option String) (env : String → String)
    (req : String) (fs2 : List (String × Json))
    (hkey : pyStrip (apiKey.getD "") ≠ "")
    (h2 : pyOr (safe_json_loads (env (arc_planner_prompt req))) (Json.obj []) = Json.obj fs2)
    (h2t : ∀ v, jlookup fs2 "target_words" = some v → truthy v = true →
      ∃ n, v = Json.num n)
    (h2b : ∀ v, jlookup fs2 "beats" = some v → truthy v = true →
      ∃ l, v = Json.arr l) :
    noRaise (make_arc_plan apiKey env req) = true := by
  unfold make_arc_plan
  rw [call_model_ok _ _ _ hkey, exceptBind_ok, h2, exceptBind_ok]
  have htwraw : pyGetD (Json.obj fs2) "target_words" Json.null =
      Except.ok ((jlookup fs2 "target_words").getD Json.null) := rfl
  rw [htwraw, exceptBind_ok]
  have htw : ∃ n, pyInt (pyOr ((jlookup fs2 "target_words").getD Json.null)
      (Json.num 900)) = Except.ok n := by
    cases hw : jlookup fs2 "target_words" with
    | none => exact ⟨900, rfl⟩
    | some v =>
        cases ht : truthy v with
        | false =>
            refine ⟨900, ?_⟩
            simp only [Option.getD, pyOr, ht]
            rfl
        | true =>
            obtain ⟨n, hn⟩ := h2t v hw ht
            subst hn
            exact ⟨n, by simp only [Option.getD, pyOr, ht]; rfl⟩
  obtain ⟨n, hn⟩ := htw
  rw [hn, exceptBind_ok]
  have hbraw : pyGetD (Json.obj fs2) "beats" Json.null =
      Except.ok ((jlookup fs2 "beats").getD Json.null) := rfl
  rw [hbraw, exceptBind_ok]
  have hb : ∃ l, pyOr ((jlookup fs2 "beats").getD Json.null) (Json.arr []) =
      Json.arr l := by
    cases hw : jlookup fs2 "beats" with
    | none => exact ⟨[], rfl⟩
    | some v =>
        cases ht : truthy v with
        | false =>
            refine ⟨[], ?_⟩
            simp only [Option.getD, pyOr, ht]
            rfl
        | true =>
            obtain ⟨l, hl⟩ := h2b v hw ht
            subst hl
            exact ⟨l, by simp only [Option.getD, pyOr, ht]; rfl⟩
  obtain ⟨l, hl⟩ := hb
  rw [hl, exceptBind_ok, exceptBind_ok]
  have hlen : pyLen (Json.arr l) = Except.ok l.length := rfl
  rw [hlen, exceptBind_ok, exceptBind_ok]
  rfl

theorem judgeFromData_ok_of_obj (fs : List (String × Json))
    (hs : ∀ v, jlookup fs "scores" = some v →
      ∃ sfs, v = Json.obj sfs ∧ ∀ p ∈ sfs, ∃ n, p.2 = Json.num n) :
    noRaise (judgeFromData (Json.obj fs)) = true := by
  unfold judgeFromData
  have hso : ∃ sfs, pyGetD (Json.obj fs) "scores" (Json.obj []) =
      Except.ok (Json.obj sfs) ∧ ∀ p ∈ sfs, ∃ n, p.2 = Json.num n := by
    have hx : pyGetD (Json.obj fs) "scores" (Json.obj []) =
        Except.ok ((jlookup fs "scores").getD (Json.obj [])) := rfl
    cases hw : jlookup fs "scores" with
    | none =>
        refine ⟨[], by rw [hx, hw]; rfl, ?_⟩
        intro p hp
        cases hp
    | some v =>
        obtain ⟨sfs, hv, hnum⟩ := hs v hw
        subst hv
        exact ⟨sfs, by rw [hx, hw]; rfl, hnum⟩
  obtain ⟨sfs, hso, hnum⟩ := hso
  rw [hso, exceptBind_ok]
  have hsafe : ∃ m, pyGetD (Json.obj sfs) "safety" (Json.num 0) =
      Except.ok (Json.num m) := by
    have hx : pyGetD (Json.obj sfs) "safety" (Json.num 0) =
        Except.ok ((jlookup sfs "safety").getD (Json.num 0)) := rfl
    cases hw : jlookup sfs "safety" with
    | none => exact ⟨0, by rw [hx, hw]; rfl⟩
    | some w =>
        obtain ⟨p, hp, hpv⟩ := jlookup_mem sfs "safety" w hw
        obtain ⟨m, hm⟩ := hnum p hp
        refine ⟨m, ?_⟩
        rw [hx, hw]
        rw [hpv] at hm
        rw [hm]
        rfl
  obtain ⟨m, hm⟩ := hsafe
  rw [hm, exceptBind_ok]
  have hrep : pyGetD (Json.obj fs) "overall_pass" (Json.bool false) =
      Except.ok ((jlookup fs "overall_pass").getD (Json.bool false)) := rfl
  rw [hrep, exceptBind_ok]
  cases htr : truthy ((jlookup fs "overall_pass").getD (Json.bool false)) with
  | true =>
      simp only [htr]
      simp [pyGetD, exceptBind_ok, noRaise]
  | false =>
      simp only [htr]
      rw [if_neg (by simp : ¬ false = true)]
      have hvals : ∀ v ∈ jsonValues (Json.obj sfs), ∃ n, v = Json.num n := by
        intro v hv
        unfold jsonValues at hv
        obtain ⟨p, hp, hpv⟩ := List.mem_map.mp hv
        obtain ⟨n, hn⟩ := hnum p hp
        exact ⟨n, by rw [← hpv, hn]⟩
      obtain ⟨b, hb⟩ := pyAllGE7_ok_of_nums _ hvals
      rw [hb, exceptBind_ok]
      cases b with
      | true =>
          rw [if_pos rfl]
          have hge : pyGE (Json.num m) 8 = Except.ok (decide (8 ≤ m)) := rfl
          rw [hge]
          simp [pyGetD, exceptBind_ok, noRaise]
      | false =>
          rw [if_neg (by simp)]
          simp [pyGetD, exceptBind_ok, noRaise]

theorem judge_story_ok_of_obj (apiKey : Option String) (env : String → String)
    (req story : String) (fs3 : List (String × Json))
    (hkey : pyStrip (apiKey.getD "") ≠ "")
    (h3 : pyOr (safe_json_loads (env (judge_prompt req story))) (Json.obj []) = Json.obj fs3)
    (h3s : ∀ v, jlookup fs3 "scores" = some v →
      ∃ sfs, v = Json.obj sfs ∧ ∀ p ∈ sfs, ∃ n, p.2 = Json.num n) :
    noRaise (judge_story apiKey env req story) = true := by
  unfold judge_story
  rw [call_model_ok _ _ _ hkey, exceptBind_ok, h3]
  exact judgeFromData_ok_of_obj fs3 h3s

/-- Claim C3 (amended): with the credential present, `parse_request`,
`make_arc_plan` and `judge_story` never raise provided the decoded model
response (after the `or` defaulting) is an object whose relevant fields
are well-typed in the following sense: `constraints` is absent or a list
(truthy or not); `target_words` and `beats` are absent, falsy — their
`or`-defaulting replaces any falsy value — or else a number and a list
respectively; and `scores` is absent or an object with numeric values
(a present-but-falsy ill-typed value such as `null` still raises for
`constraints` and `scores`, which have no `or`-defaulting).  Non-JSON
text and missing fields are absorbed by the JSON extraction and the
field defaults; a decoded non-object or ill-typed field, however, can
raise (see the counterexample). -/
theorem pipeline_absorbs_welltyped_output (apiKey : Option String)
    (env : String → String) (req story : String)
    (fs1 fs2 fs3 : List (String × Json))
    (hkey : pyStrip (apiKey.getD "") ≠ "")
    (h1 : pyOr (safe_json_loads (env (parser_prompt req))) (Json.obj []) = Json.obj fs1)
    (h1c : jlookup fs1 "constraints" = none ∨
      ∃ l, jlookup fs1 "constraints" = some (Json.arr l))
    (h2 : pyOr (safe_json_loads (env (arc_planner_prompt req))) (Json.obj []) = Json.obj fs2)
    (h2t : ∀ v, jlookup fs2 "target_words" = some v → truthy v = true →
      ∃ n, v = Json.num n)
    (h2b : ∀ v, jlookup fs2 "beats" = some v → truthy v = true →
      ∃ l, v = Json.arr l)
    (h3 : pyOr (safe_json_loads (env (judge_prompt req story))) (Json.obj []) = Json.obj fs3)
    (h3s : ∀ v, jlookup fs3 "scores" = some v →
      ∃ sfs, v = Json.obj sfs ∧ ∀ p ∈ sfs, ∃ n, p.2 = Json.num n) :
    noRaise (parse_request apiKey env req) = true ∧
    noRaise (make_arc_plan apiKey env req) = true ∧
    noRaise (judge_story apiKey env req story) = true :=
  ⟨parse_request_ok_of_obj apiKey env req fs1 hkey h1 h1c,
   make_arc_plan_ok_of_obj apiKey env req fs2 hkey h2 h2t h2b,
   judge_story_ok_of_obj apiKey env req story fs3 hkey h3 h3s⟩

/-- Claim C3, counterexample to the claim as stated: a model response
that is a JSON array (well-formed JSON, but not an object) makes
`parse_request` raise an `AttributeError` (`[1].get(...)` in Python), so
malformed model output is not always absorbed. -/
theorem parse_request_raises_on_array_response :
    parse_request (some "k") (fun _ => "[1]") "r" =
      Except.error PyErr.attributeError := by decide

/-- Claim C3, witness: the no-raise theorem applied to a prose (non-JSON)
model response. -/
theorem pipeline_absorbs_welltyped_output_witness :
    noRaise (parse_request (some "k") (fun _ => "Sorry, no JSON today.") "r") = true ∧
    noRaise (make_arc_plan (some "k") (fun _ => "Sorry, no JSON today.") "r") = true ∧
    noRaise (judge_story (some "k") (fun _ => "Sorry, no JSON today.") "r" "s") = true := by
  have h := pipeline_absorbs_welltyped_output (some "k")
    (fun _ => "Sorry, no JSON today.") "r" "s" [] [] []
    (by decide) (by decide) (Or.inl rfl) (by decide)
    (fun v hv => nomatch hv) (fun v hv => nomatch hv) (by decide)
    (fun v hv => nomatch hv)
  exact h

/-! ### Arc-plan validation (claim C4) -/

/-- Claim C4: for a planner response supplying an integer `target_words`
value `v` and a list `beats` value `bs`, the returned `ArcPlan` keeps `v`
exactly when `v` lies in `[600, 1100]` and is `900` otherwise, and keeps
`bs` verbatim exactly when it has exactly six entries, substituting the
whole hardcoded fallback outline otherwise — no partial correction. -/
theorem make_arc_plan_validation (apiKey : Option String) (env : String → String)
    (req : String) (v : Int) (bs : List Json)
    (hkey : pyStrip (apiKey.getD "") ≠ "")
    (h : safe_json_loads (env (arc_planner_prompt req)) =
      Json.obj [("target_words", Json.num v), ("beats", Json.arr bs)]) :
    make_arc_plan apiKey env req = Except.ok
      { target_words := if 600 ≤ v ∧ v ≤ 1100 then v else 900,
        beats := if bs.length = 6 then Json.arr bs else fallbackBeats } := by
  unfold make_arc_plan
  rw [call_model_ok _ _ _ hkey, exceptBind_ok, h,
    pyOr_of_truthy _ _ (by simp [truthy]), exceptBind_ok]
  have h1 : pyGetD (Json.obj [("target_words", Json.num v), ("beats", Json.arr bs)])
      "target_words" Json.null = Except.ok (Json.num v) := rfl
  have h2 : pyGetD (Json.obj [("target_words", Json.num v), ("beats", Json.arr bs)])
      "beats" Json.null = Except.ok (Json.arr bs) := rfl
  rw [h1, exceptBind_ok]
  have hpy : pyInt (pyOr (Json.num v) (Json.num 900)) =
      Except.ok (if v = 0 then 900 else v) := by
    by_cases hv : v = 0
    · simp [pyOr, truthy, pyInt, hv]
    · simp [pyOr, truthy, pyInt, hv]
  rw [hpy, exceptBind_ok, h2, exceptBind_ok]
  have hbe : pyOr (Json.arr bs) (Json.arr []) = Json.arr bs := by
    cases bs <;> simp [pyOr, truthy]
  rw [exceptBind_ok, hbe, exceptBind_ok]
  have hlen : pyLen (Json.arr bs) = Except.ok bs.length := rfl
  rw [hlen, exceptBind_ok, exceptBind_ok]
  refine congrArg Except.ok ?_
  have htw : (if (if v = 0 then (900 : Int) else v) < 600 ∨
      (if v = 0 then (900 : Int) else v) > 1100 then (900 : Int)
      else if v = 0 then (900 : Int) else v) =
      (if 600 ≤ v ∧ v ≤ 1100 then v else 900) := by
    by_cases hv : v = 0
    · subst hv
      norm_num
    · rw [if_neg hv]
      by_cases h6 : 600 ≤ v ∧ v ≤ 1100
      · rw [if_pos h6, if_neg (by omega)]
      · rw [if_neg h6, if_pos (by omega)]
  have hbt : (if bs.length ≠ 6 then fallbackBeats else Json.arr bs) =
      (if bs.length = 6 then Json.arr bs else fallbackBeats) := by
    by_cases h6 : bs.length = 6 <;> simp [h6]
  simp only [htw, hbt]

/-- Claim C4, witness: an out-of-range word count (1200) is reset to 900
while a six-beat list is kept verbatim. -/
theorem make_arc_plan_validation_witness :
    make_arc_plan (some "k")
      (fun _ => "\x7b\"target_words\": 1200, \"beats\": [\"a\", \"b\", \"c\", \"d\", \"e\", \"f\"]\x7d")
      "r" = Except.ok
      { target_words := 900,
        beats := Json.arr [Json.str "a", Json.str "b", Json.str "c",
          Json.str "d", Json.str "e", Json.str "f"] } := by
  have h := make_arc_plan_validation (some "k")
    (fun _ => "\x7b\"target_words\": 1200, \"beats\": [\"a\", \"b\", \"c\", \"d\", \"e\", \"f\"]\x7d")
    "r" 1200
    [Json.str "a", Json.str "b", Json.str "c", Json.str "d", Json.str "e", Json.str "f"]
    (by decide) (by decide)
  simpa using h

/-! ### The constraint list of a parsed request (claim C5) -/

theorem any_eq_decide_mem (cs : List Json) (r : String) :
    cs.any (fun x => x = Json.str r) = decide (Json.str r ∈ cs) := by
  induction cs with
  | nil => rfl
  | cons c rest ih =>
      by_cases hc : c = Json.str r
      · simp [hc]
      · simp [List.any_cons, hc, ih, Ne.symm hc]

theorem addAllConstraints_arr_eq :
    ∀ (rs : List String), rs.Nodup → ∀ cs : List Json,
      addAllConstraints (Json.arr cs) rs = Except.ok
        (Json.arr (cs ++ (rs.filter (fun r => Json.str r ∉ cs)).map Json.str)) := by
  intro rs
  induction rs with
  | nil => intro _ cs; simp [addAllConstraints]
  | cons r rs ih =>
      intro hnd cs
      obtain ⟨hr, hnd'⟩ := List.nodup_cons.mp hnd
      by_cases hm : Json.str r ∈ cs
      · have hstep : addConstraint (Json.arr cs) r = Except.ok (Json.arr cs) := by
          unfold addConstraint pyContains
          rw [exceptBind_ok, any_eq_decide_mem]
          simp [hm]
        have : addAllConstraints (Json.arr cs) (r :: rs) =
            addAllConstraints (Json.arr cs) rs := by
          simp only [addAllConstraints]
          rw [hstep, exceptBind_ok]
        rw [this, ih hnd' cs]
        have hfilter : (r :: rs).filter (fun r' => Json.str r' ∉ cs) =
            rs.filter (fun r' => Json.str r' ∉ cs) := by
          rw [List.filter_cons]
          simp [hm]
        rw [hfilter]
      · have hstep : addConstraint (Json.arr cs) r =
            Except.ok (Json.arr (cs ++ [Json.str r])) := by
          unfold addConstraint pyContains
          rw [exceptBind_ok, any_eq_decide_mem]
          simp [hm]
        have hre : addAllConstraints (Json.arr cs) (r :: rs) =
            addAllConstraints (Json.arr (cs ++ [Json.str r])) rs := by
          simp only [addAllConstraints]
          rw [hstep, exceptBind_ok]
        rw [hre, ih hnd' (cs ++ [Json.str r])]
        have hfilter : rs.filter (fun r' => Json.str r' ∉ cs ++ [Json.str r]) =
            rs.filter (fun r' => Json.str r' ∉ cs) := by
          apply List.filter_congr
          intro r' hr'
          have hne : r' ≠ r := fun he => hr (he ▸ hr')
          simp [List.mem_append, hne, Json.str.injEq]
        rw [hfilter]
        have hfc : (r :: rs).filter (fun r' => Json.str r' ∉ cs) =
            r :: rs.filter (fun r' => Json.str r' ∉ cs) := by
          rw [List.filter_cons]
          simp [hm]
        rw [hfc]
        simp

/-- Claim C5 (amended): when the model supplies a constraints list `cs`,
the parsed request's constraint list is `cs` followed by the missing
mandatory strings in their fixed order; it contains all six mandatory
strings, and the appending introduces no duplicates — the result has no
duplicates whenever the upstream list had none.  (An upstream list that
itself contains duplicates keeps them; see the counterexample.) -/
theorem parse_request_constraints_complete (apiKey : Option String)
    (env : String → String) (req : String) (cs : List Json)
    (hkey : pyStrip (apiKey.getD "") ≠ "")
    (h : safe_json_loads (env (parser_prompt req)) =
      Json.obj [("constraints", Json.arr cs)]) :
    parse_request apiKey env req = Except.ok
      { raw_request := req,
        title_hint := Json.str "A Cozy Bedtime Adventure",
        characters := Json.arr [],
        setting := Json.str "a quiet, magical place",
        theme := Json.str "friendship and kindness",
        tone := Json.str "cozy and gentle",
        constraints := Json.arr (cs ++
          (requiredConstraints.filter (fun r => Json.str r ∉ cs)).map Json.str) } ∧
    (∀ r ∈ requiredConstraints, Json.str r ∈ cs ++
      (requiredConstraints.filter (fun r => Json.str r ∉ cs)).map Json.str) ∧
    (cs.Nodup → (cs ++
      (requiredConstraints.filter (fun r => Json.str r ∉ cs)).map Json.str).Nodup) := by
  refine ⟨?_, ?_, ?_⟩
  · unfold parse_request
    rw [call_model_ok _ _ _ hkey, exceptBind_ok, h,
      pyOr_of_truthy _ _ (by simp [truthy]), exceptBind_ok]
    have h1 : pyGetD (Json.obj [("constraints", Json.arr cs)]) "constraints"
        (Json.arr []) = Except.ok (Json.arr cs) := rfl
    rw [h1, exceptBind_ok,
      addAllConstraints_arr_eq requiredConstraints (by decide) cs, exceptBind_ok]
    rfl
  · intro r hr
    by_cases hm : Json.str r ∈ cs
    · exact List.mem_append_left _ hm
    · refine List.mem_append_right _ ?_
      exact List.mem_map.mpr ⟨r, List.mem_filter.mpr ⟨hr, by simp [hm]⟩, rfl⟩
  · intro hnd
    rw [List.nodup_append]
    refine ⟨hnd, ?_, ?_⟩
    · refine List.Nodup.map ?_ (List.Nodup.filter _ (by decide))
      intro a b hab
      exact Json.str.inj hab
    · intro x hx hy
      obtain ⟨r, hrf, hrx⟩ := List.mem_map.mp hy
      have hnotin := (List.mem_filter.mp hrf).2
      rw [← hrx] at hx
      simp only [decide_eq_true_eq] at hnotin
      exact hnotin hx

/-- Claim C5, counterexample to the claim as stated: an upstream
constraints list that already contains "no gore" twice keeps both copies,
so the returned constraint list can contain duplicates. -/
theorem parse_request_keeps_upstream_duplicates :
    (parse_request (some "k")
        (fun _ => "\x7b\"constraints\": [\"no gore\", \"no gore\"]\x7d") "r").map
      ParsedRequest.constraints =
      Except.ok (Json.arr [Json.str "no gore", Json.str "no gore",
        Json.str "no explicit romance", Json.str "no cruelty",
        Json.str "no graphic violence", Json.str "warm ending",
        Json.str "bedtime pacing"]) ∧
    ¬ ([Json.str "no gore", Json.str "no gore",
        Json.str "no explicit romance", Json.str "no cruelty",
        Json.str "no graphic violence", Json.str "warm ending",
        Json.str "bedtime pacing"] : List Json).Nodup := by
  constructor
  · decide
  · decide

/-- Claim C5, witness: the constraints theorem applied to an upstream
list supplying only "no cruelty". -/
theorem parse_request_constraints_complete_witness :
    parse_request (some "k")
      (fun _ => "\x7b\"constraints\": [\"no cruelty\"]\x7d") "r" = Except.ok
      { raw_request := "r",
        title_hint := Json.str "A Cozy Bedtime Adventure",
        characters := Json.arr [],
        setting := Json.str "a quiet, magical place",
        theme := Json.str "friendship and kindness",
        tone := Json.str "cozy and gentle",
        constraints := Json.arr [Json.str "no cruelty", Json.str "no gore",
          Json.str "no explicit romance", Json.str "no graphic violence",
          Json.str "warm ending", Json.str "bedtime pacing"] } := by
  have h := parse_request_constraints_complete (some "k")
    (fun _ => "\x7b\"constraints\": [\"no cruelty\"]\x7d") "r"
    [Json.str "no cruelty"] (by decide) (by decide)
  simpa using h.1

/-! ### JSON extraction from prose (claim C6) -/

theorem dropWhile_append_all {p : Char → Bool} (l1 l2 : List Char)
    (h : ∀ c ∈ l1, p c = true) :
    (l1 ++ l2).dropWhile p = l2.dropWhile p := by
  induction l1 with
  | nil => rfl
  | cons c rest ih =>
      rw [List.cons_append,
        List.dropWhile_cons_of_pos (h c (List.mem_cons_self c rest))]
      exact ih (fun d hd => h d (List.mem_cons_of_mem _ hd))

theorem dropWhile_head_not (p : Char → Bool) :
    ∀ (l : List Char) (y : Char) (ys : List Char),
      l.dropWhile p = y :: ys → p y = false := by
  intro l
  induction l with
  | nil => intro y ys h; cases h
  | cons c rest ih =>
      intro y ys h
      by_cases hc : p c = true
      · rw [List.dropWhile_cons_of_pos hc] at h
        exact ih y ys h
      · rw [List.dropWhile_cons_of_neg hc] at h
        injection h with h1 _
        rw [← h1]
        exact Bool.eq_false_iff.mpr hc

theorem braceExtract_sandwich (pre mid post : List Char)
    (hpre : ∀ c ∈ pre, c ≠ lbrace ∧ c ≠ rbrace)
    (hpost : ∀ c ∈ post, c ≠ lbrace ∧ c ≠ rbrace) :
    braceExtract (pre ++ (lbrace :: (mid ++ [rbrace])) ++ post) =
      some (lbrace :: (mid ++ [rbrace])) := by
  have h1 : (pre ++ (lbrace :: (mid ++ [rbrace])) ++ post).dropWhile
      (fun c => c ≠ lbrace) = lbrace :: ((mid ++ [rbrace]) ++ post) := by
    rw [List.append_assoc,
      dropWhile_append_all pre _ (fun c hc => by simp [(hpre c hc).1]),
      List.cons_append,
      List.dropWhile_cons_of_neg (by simp)]
  have hrev : (lbrace :: ((mid ++ [rbrace]) ++ post)).reverse =
      post.reverse ++ (rbrace :: (mid.reverse ++ [lbrace])) := by
    simp [List.reverse_cons, List.reverse_append]
  have h2 : ((lbrace :: ((mid ++ [rbrace]) ++ post)).reverse).dropWhile
      (fun c => c ≠ rbrace) = rbrace :: (mid.reverse ++ [lbrace]) := by
    rw [hrev,
      dropWhile_append_all post.reverse _
        (fun c hc => by simp [(hpost c (List.mem_reverse.mp hc)).2]),
      List.dropWhile_cons_of_neg (by simp)]
  simp only [braceExtract, h1, h2]
  rw [if_neg (by simp [List.reverse_cons, List.reverse_append])]
  simp [List.reverse_cons, List.reverse_append]

theorem braceExtract_some_decomp (l u : List Char)
    (hu : braceExtract l = some u) :
    ∃ l1 l2 l3, l = l1 ++ lbrace :: (l2 ++ rbrace :: l3) := by
  simp only [braceExtract] at hu
  split at hu
  · cases hu
  · next hlen =>
    injection hu with hu
    rw [hu] at hlen
    have hl : l.takeWhile (fun c => c ≠ lbrace) ++
        l.dropWhile (fun c => c ≠ lbrace) = l :=
      List.takeWhile_append_dropWhile _ _
    have hrt := List.takeWhile_append_dropWhile (fun c : Char => c ≠ rbrace)
      (l.dropWhile (fun c => c ≠ lbrace)).reverse
    have hD : l.dropWhile (fun c => c ≠ lbrace) =
        u ++ ((l.dropWhile (fun c => c ≠ lbrace)).reverse.takeWhile
          (fun c => c ≠ rbrace)).reverse := by
      have hc := congrArg List.reverse hrt
      rw [List.reverse_append, List.reverse_reverse, hu] at hc
      exact hc.symm
    have hWne : (l.dropWhile (fun c => c ≠ lbrace)).reverse.dropWhile
        (fun c => c ≠ rbrace) ≠ [] := by
      intro h0
      rw [h0] at hu
      rw [← hu] at hlen
      simp at hlen
    obtain ⟨wh, ws, hwcons⟩ := List.exists_cons_of_ne_nil hWne
    have hwh : wh = rbrace := by
      have hfalse := dropWhile_head_not (fun c => c ≠ rbrace) _ wh ws hwcons
      simpa using hfalse
    have hulast : u = ws.reverse ++ [rbrace] := by
      rw [← hu, hwcons, hwh, List.reverse_cons]
    have hune : u ≠ [] := by
      intro h0
      rw [h0] at hlen
      simp at hlen
    obtain ⟨x0, xrest, hxcons⟩ := List.exists_cons_of_ne_nil hune
    have hDne : l.dropWhile (fun c => c ≠ lbrace) ≠ [] := by
      rw [hD, hxcons]
      simp
    obtain ⟨dh, ds, hdcons⟩ := List.exists_cons_of_ne_nil hDne
    have hdh : dh = lbrace := by
      have hfalse := dropWhile_head_not (fun c => c ≠ lbrace) l dh ds hdcons
      simpa using hfalse
    rw [hdcons] at hD hl
    obtain ⟨T, hT⟩ : ∃ T, ((dh :: ds).reverse.takeWhile
        (fun c => c ≠ rbrace)).reverse = T := ⟨_, rfl⟩
    rw [hT] at hD
    rw [hxcons, List.cons_append] at hD
    injection hD with hdx1 hdx2
    have hxrest : xrest ≠ [] := by
      intro h0
      rw [hxcons, h0] at hlen
      simp at hlen
    have hxtail : ∃ mid2, xrest = mid2 ++ [rbrace] := by
      rw [hxcons] at hulast
      cases hws : ws.reverse with
      | nil =>
          rw [hws, List.nil_append] at hulast
          injection hulast with _ h2
          exact absurd h2 hxrest
      | cons a arest =>
          rw [hws, List.cons_append] at hulast
          injection hulast with _ h2
          exact ⟨arest, h2⟩
    obtain ⟨mid2, hmid2⟩ := hxtail
    refine ⟨l.takeWhile (fun c => c ≠ lbrace), mid2, T, ?_⟩
    conv_lhs => rw [← hl]
    rw [hdh, hdx2, hmid2, List.append_assoc, List.singleton_append]

theorem braceExtract_eq_none_of_no_pair (l : List Char)
    (h : ¬ ∃ l1 l2 l3, l = l1 ++ lbrace :: (l2 ++ rbrace :: l3)) :
    braceExtract l = none := by
  cases hbe : braceExtract l with
  | none => rfl
  | some u => exact absurd (braceExtract_some_decomp l u hbe) h

/-- Claim C6 (amended): (i) for a text consisting of a well-formed JSON
object surrounded by brace-free prose, when the direct parse of the whole
text fails the regex fallback extracts exactly the object and
`safe_json_loads` returns its parsed value; (ii) for a text that is not
itself valid JSON and contains no brace-delimited substring,
`safe_json_loads` returns the absent result.  (A text with no braces that
is itself valid JSON — for example a bare number — is returned as parsed,
not absent; see the counterexample.) -/
theorem safe_json_loads_extraction :
    (∀ (pre mid post : List Char) (j : Json),
      (∀ c ∈ pre, c ≠ lbrace ∧ c ≠ rbrace) →
      (∀ c ∈ post, c ≠ lbrace ∧ c ≠ rbrace) →
      pyParseJsonL (lbrace :: (mid ++ [rbrace])) = some j →
      pyParseJsonL (pre ++ (lbrace :: (mid ++ [rbrace])) ++ post) = none →
      safe_json_loads_list (pre ++ (lbrace :: (mid ++ [rbrace])) ++ post) = j) ∧
    (∀ l : List Char, pyParseJsonL l = none →
      (¬ ∃ l1 l2 l3, l = l1 ++ lbrace :: (l2 ++ rbrace :: l3)) →
      safe_json_loads_list l = Json.null) := by
  constructor
  · intro pre mid post j hpre hpost hobj hwhole
    unfold safe_json_loads_list
    rw [hwhole, braceExtract_sandwich pre mid post hpre hpost]
    show (pyParseJsonL (lbrace :: (mid ++ [rbrace]))).getD Json.null = j
    rw [hobj]
    rfl
  · intro l hparse hnopair
    unfold safe_json_loads_list
    rw [hparse, braceExtract_eq_none_of_no_pair l hnopair]
    

/-- Claim C6, counterexample to the claim as stated: the text "5"
contains no brace-delimited substring, yet `safe_json_loads` returns the
parsed number 5 rather than the absent result, because the direct parse
succeeds on any valid JSON value, object or not. -/
theorem safe_json_loads_bare_scalar :
    safe_json_loads "5" = Json.num 5 ∧ lbrace ∉ "5".data ∧ rbrace ∉ "5".data := by
  refine ⟨by decide, by decide, by decide⟩

/-- Claim C6, witness: the extraction theorem applied to an object
surrounded by prose, and to a brace-free prose text. -/
theorem safe_json_loads_extraction_witness :
    safe_json_loads "Sure: \x7b\"a\": 1\x7d ok" = Json.obj [("a", Json.num 1)] ∧
    safe_json_loads "hello" = Json.null := by
  constructor
  · have h := safe_json_loads_extraction.1 ("Sure: ".data) ("\"a\": 1".data)
      (" ok".data) (Json.obj [("a", Json.num 1)])
      (by decide) (by decide) (by decide) (by decide)
    exact h
  · have h := safe_json_loads_extraction.2 ("hello".data)
      (by decide)
      (by
        rintro ⟨l1, l2, l3, hl⟩
        have hmem : lbrace ∈ "hello".data := by
          rw [hl]
          simp
        exact absurd hmem (by decide))
    exact h

/-! ### The revision loop (claims C7, C8, C10) and the credential check (claim C9) -/

theorem judgingLoop_always_fail (apiKey : Option String) (env : String → String)
    (req : String)
    (hkey : pyStrip (apiKey.getD "") ≠ "")
    (hj : ∀ s, ∃ v, judge_story apiKey env req s = Except.ok v ∧
      truthy v.overall_pass = false ∧ noRaise (reviser_prompt req s v.fixes) = true) :
    ∀ (n : Nat) (s : String),
      judgingLoop apiKey env req n s =
        Except.ok ((reviseStepD apiKey env req)^[n] s, n, n) := by
  intro n
  induction n with
  | zero => intro s; rfl
  | succ k ih =>
      intro s
      obtain ⟨v, hv, hfail, hrp⟩ := hj s
      cases hrpe : reviser_prompt req s v.fixes with
      | error e =>
          rw [hrpe] at hrp
          simp [noRaise] at hrp
      | ok rp =>
          have hcm : (call_model apiKey env rp).1 = Except.ok (env rp) :=
            call_model_ok apiKey env rp hkey
          have hstep : reviseStepD apiKey env req s = env rp := by
            simp only [reviseStepD, hv, hrpe, hcm]
          simp only [judgingLoop]
          rw [hv, exceptBind_ok, hfail]
          rw [if_neg (by simp : ¬ false = true)]
          rw [hrpe, exceptBind_ok, hcm, exceptBind_ok, ih (env rp), exceptBind_ok]
          rw [Function.iterate_succ_apply, hstep]

/-- Claim C7: with a positive round budget and a judge that reports
failure (and a working revision prompt) on every draft, the loop
performs exactly `max_rounds` judge calls and `max_rounds` revision
calls, and returns the draft produced by the final revision — the
`max_rounds`-fold iteration of the judge-then-revise step applied to the
initial draft, not the initial draft's provenance. -/
theorem revision_loop_exhausts_budget (apiKey : Option String)
    (env : String → String) (req s0 : String) (n : Int)
    (hn : 1 ≤ n)
    (hkey : pyStrip (apiKey.getD "") ≠ "")
    (h0 : initial_draft apiKey env req = Except.ok s0)
    (hj : ∀ s, ∃ v, judge_story apiKey env req s = Except.ok v ∧
      truthy v.overall_pass = false ∧ noRaise (reviser_prompt req s v.fixes) = true) :
    generate_story_with_judging apiKey env req n =
      Except.ok ((reviseStepD apiKey env req)^[n.toNat] s0, n.toNat, n.toNat) := by
  unfold generate_story_with_judging
  rw [h0, exceptBind_ok]
  exact judgingLoop_always_fail apiKey env req hkey hj n.toNat s0

/-- Claim C7, witness: with a model that always answers with empty text
(whose judge verdict is a failure), two rounds perform two judge calls
and two revisions. -/
theorem revision_loop_exhausts_budget_witness :
    generate_story_with_judging (some "k") (fun _ => "") "r" 2 =
      Except.ok ("", 2, 2) := by
  have h := revision_loop_exhausts_budget (some "k") (fun _ => "") "r" "" 2
    (by decide) (by decide) (by decide)
    (fun s => ⟨JudgeResult.mk (Json.bool false) (Json.obj []) (Json.arr [])
      (Json.arr []) (Json.arr []), rfl, rfl, rfl⟩)
  rw [h]
  rfl

/-- Claim C8: with a positive round budget and a judge that passes the
initial draft, the loop performs exactly one judge call, no revision
call, and returns the initial draft unmodified. -/
theorem revision_loop_early_exit (apiKey : Option String)
    (env : String → String) (req s0 : String) (n : Int)
    (hn : 1 ≤ n)
    (h0 : initial_draft apiKey env req = Except.ok s0)
    (hj : ∃ v, judge_story apiKey env req s0 = Except.ok v ∧
      truthy v.overall_pass = true) :
    generate_story_with_judging apiKey env req n = Except.ok (s0, 1, 0) := by
  unfold generate_story_with_judging
  rw [h0, exceptBind_ok]
  obtain ⟨v, hv, hpass⟩ := hj
  obtain ⟨m, hm⟩ : ∃ m, n.toNat = m + 1 := by
    have hne : n.toNat ≠ 0 := by
      intro h0'
      rw [Int.toNat_eq_zero] at h0'
      omega
    exact ⟨n.toNat - 1, by omega⟩
  rw [hm]
  simp only [judgingLoop]
  rw [hv, exceptBind_ok, hpass]
  simp

/-- Claim C8, witness: a model that always reports a passing verdict
yields one judge call, no revision, and the original draft. -/
theorem revision_loop_early_exit_witness :
    generate_story_with_judging (some "k")
      (fun _ => "\x7b\"overall_pass\": true\x7d") "r" 3 =
      Except.ok ("\x7b\"overall_pass\": true\x7d", 1, 0) := by
  have h := revision_loop_early_exit (some "k")
    (fun _ => "\x7b\"overall_pass\": true\x7d") "r"
    "\x7b\"overall_pass\": true\x7d" 3 (by decide) (by decide)
    ⟨JudgeResult.mk (Json.bool true) (Json.obj []) (Json.arr [])
      (Json.arr []) (Json.arr []), by decide, rfl⟩
  exact h

/-- Claim C10: with a zero or negative round budget, `range(max_rounds)`
is empty, so no judge call and no revision happen and the initial,
never-evaluated draft is returned. -/
theorem loop_skipped_for_nonpositive_rounds (apiKey : Option String)
    (env : String → String) (req s0 : String) (n : Int)
    (hn : n ≤ 0)
    (h0 : initial_draft apiKey env req = Except.ok s0) :
    generate_story_with_judging apiKey env req n = Except.ok (s0, 0, 0) := by
  unfold generate_story_with_judging
  rw [h0, exceptBind_ok, Int.toNat_eq_zero.mpr hn]
  rfl

/-- Claim C10, witness: a negative round budget returns the unjudged
initial draft. -/
theorem loop_skipped_for_nonpositive_rounds_witness :
    generate_story_with_judging (some "k") (fun _ => "") "r" (-3) =
      Except.ok ("", 0, 0) := by
  have h := loop_skipped_for_nonpositive_rounds (some "k") (fun _ => "") "r" ""
    (-3) (by decide) (by decide)
  exact h

/-- Claim C9: when the OPENAI_API_KEY environment value is absent, empty,
or whitespace-only (its stripped form is empty), `call_model` raises a
`RuntimeError` carrying the descriptive message, and does so before any
network call — the list of performed service calls is empty.  Nothing
catches or retries this error. -/
theorem call_model_missing_key (apiKey : Option String) (env : String → String)
    (prompt : String) (h : pyStrip (apiKey.getD "") = "") :
    call_model apiKey env prompt =
      (Except.error (PyErr.runtimeError
        "OPENAI_API_KEY is not set. Set it in your environment and rerun."), []) := by
  unfold call_model
  rw [if_pos h]

/-- Claim C9, witness: a whitespace-only key value. -/
theorem call_model_missing_key_witness :
    call_model (some "   ") (fun _ => "x") "p" =
      (Except.error (PyErr.runtimeError
        "OPENAI_API_KEY is not set. Set it in your environment and rerun."), []) :=
  call_model_missing_key (some "   ") (fun _ => "x") "p" (by decide)
